import Mathlib

/-!
Shallow embedding of smarts/core/agent_manager.py (class AgentManager).

Python dicts are modelled as association lists (List (String × α)) with
first-match lookup and in-place update, matching Python dict semantics for
unique keys.  Python sets are modelled as lists of strings; the claims only
depend on membership.  Fallible Python code (KeyError, AttributeError,
failing assert, a raising terminate) is modelled with Option: none means the
exception escapes.  External collaborators (vehicle index, sensor engine,
remote worker handles) are modelled as record fields holding the answers
they would give during the tick under consideration.
-/

/-- First-match lookup in an association list, the semantics of a Python
dict subscript (for dicts, which have unique keys, first match is the only
match). -/
def dictLookup {α : Type} : List (String × α) → String → Option α
  | [], _ => none
  | (k, v) :: rest, key => if k = key then some v else dictLookup rest key

/-- In-place update of an association list, the semantics of a Python dict
assignment: replace the first binding of the key, or append a new binding. -/
def dictUpdate {α : Type} : List (String × α) → String → α → List (String × α)
  | [], key, val => [(key, val)]
  | (k, v) :: rest, key, val =>
      if k = key then (key, val) :: rest else (k, v) :: dictUpdate rest key val

/-- Deletion of a key from an association list, the semantics of Python del
on a dict entry (all bindings of the key are removed). -/
def dictDelete {α : Type} (l : List (String × α)) (key : String) : List (String × α) :=
  l.filter (fun p => decide (p.1 ≠ key))

/-- Last-match lookup: the binding a key ends up with after the list is
poured into a Python dict in order (later bindings win). -/
def lookupLast {α : Type} : List (String × α) → String → Option α
  | [], _ => none
  | (k, v) :: rest, key =>
      match lookupLast rest key with
      | some w => some w
      | none => if k = key then some v else none

/-- Python dict union \x7b**a, **b\x7d: start from a and write every binding of
b over it, so bindings of b take precedence on key collision. -/
def pyMerge {α : Type} (a b : List (String × α)) : List (String × α) :=
  b.foldl (fun acc p => dictUpdate acc p.1 p.2) a

/-- Action-space variants.  Only the comparison against MultiTargetPose is
observable in agent_manager.py; every other variant of the source enum
behaves like Other here. -/
inductive ActionSpaceType where
  | MultiTargetPose
  | Other
deriving DecidableEq

/-- Capability descriptor of an agent (the slice of AgentInterface that
agent_manager.py reads: its action_space). -/
structure AgentInterface where
  action_space : ActionSpaceType
deriving DecidableEq

/-- Agent metadata as stored in _agent_data_models. -/
structure AgentDataModel where
  name : String
deriving DecidableEq

/-- An action returned by an agent: a single-vehicle action, or (for
MultiTargetPose boid agents) a per-vehicle-id map of actions. -/
inductive AgentAction where
  | single (a : Nat)
  | multi (m : List (String × Nat))
deriving DecidableEq

/-- A remote social agent worker handle, modelled by the answers it gives
during the tick under consideration: recv_action's result (none models a
timeout / absent response) and whether terminate() raises. -/
structure RemoteAgent where
  recv_action : Option AgentAction
  terminate_fails : Bool
deriving DecidableEq

/-- The mutable state of AgentManager (the fields of __init__ that the
claims touch). -/
structure AgentManager where
  ego_agent_ids : List String
  social_agent_ids : List String
  vehicle_with_sensors : List (String × String)
  pending_agent_ids : List String
  agent_interfaces : List (String × AgentInterface)
  agent_data_models : List (String × AgentDataModel)
  remote_social_agents : List (String × RemoteAgent)
deriving DecidableEq

/-- agent_ids property: union of ego and social ids. -/
def AgentManager.agent_ids (m : AgentManager) : List String :=
  m.ego_agent_ids ++ m.social_agent_ids

/-- active_agents property: agent_ids minus pending_agent_ids. -/
def AgentManager.active_agents (m : AgentManager) : List String :=
  m.agent_ids.filter (fun a => decide (a ∉ m.pending_agent_ids))

/-- The slice of the simulation the AgentManager methods read: the vehicle
index queries, the sensor engine, and the two trip-meter readings
(trip_meter_sensor(increment=True) for reward, trip_meter_sensor() for
score). -/
structure SimEnv where
  agent_vehicle_ids : List String
  actor_id_from_vehicle_id : String → String
  vehicle_ids_by_actor_id : String → Bool → List String
  vehicle_indices_by_actor_id : String → List (String × String)
  sensors_observe : String → String → Nat × Bool
  trip_increment : String → Nat
  trip_total : String → Nat

/-- Modelled from the spec: envision.types.format_actor_id is not under
src/; the spec calls it a disambiguated composite key that encodes agent id
plus vehicle id, so it is modelled as their concatenation. -/
def format_actor_id (agent_id vehicle_id : String) : String :=
  agent_id ++ "-" ++ vehicle_id

/-- remove_pending_agent_ids: assert that the ids are registered agent ids,
then subtract them from pending_agent_ids.  A failing assert is none. -/
def remove_pending_agent_ids (m : AgentManager) (agent_ids : List String) :
    Option AgentManager :=
  if agent_ids.all (fun a => decide (a ∈ m.agent_ids)) then
    some { m with pending_agent_ids :=
      m.pending_agent_ids.filter (fun a => decide (a ∉ agent_ids)) }
  else none

/-- Observation value stored in the observations dict: a single observation
or, for MultiTargetPose agents, a per-vehicle batch. -/
inductive ObsVal where
  | single (o : Nat)
  | batch (m : List (String × Nat))
deriving DecidableEq

/-- Reward or score value: a single number or, for MultiTargetPose agents, a
keyed map of numbers. -/
inductive RewVal where
  | single (r : Nat)
  | perVehicle (m : List (String × Nat))
deriving DecidableEq

/-- The (observations, rewards, scores, dones) tuple returned by observe. -/
structure ObserveResult where
  observations : List (String × ObsVal)
  rewards : List (String × RewVal)
  scores : List (String × RewVal)
  dones : List (String × Bool)
deriving DecidableEq

/-- The initial dones dict of observe: every registered agent whose id is
absent from the vehicle index agent-vehicle set is mapped to the boolean
(agent not in pending_agent_ids). -/
def initialDones (m : AgentManager) (sim : SimEnv) : List (String × Bool) :=
  (m.agent_ids.filter (fun a => decide (a ∉ sim.agent_vehicle_ids))).map
    (fun a => (a, decide (a ∉ m.pending_agent_ids)))

/-- The per-agent update observe computes for one active agent: the
observation, reward, score and done values it writes under the agent id.
Fails (none) when the agent has no interface entry (KeyError) or when a
non-MultiTargetPose agent is not bound to exactly one vehicle row (the
assert in observe). -/
structure AgentUpdate where
  obs : ObsVal
  rew : RewVal
  score : RewVal
  done : Bool
deriving DecidableEq

/-- Computes the AgentUpdate of one active agent, following the body of the
for-loop in observe.  For MultiTargetPose agents: batch observation over all
bound vehicle rows, done collapsed with any(), per-vehicle rewards, scores
keyed by format_actor_id.  Otherwise: exactly one row is asserted; the
computed done is overwritten with false when the row's shadow_actor_id
equals the agent id (a shadow agent is never blamed), else kept (and the
event is logged, which has no state effect). -/
def agentUpdate (m : AgentManager) (sim : SimEnv) (agent_id : String) :
    Option AgentUpdate :=
  match dictLookup m.agent_interfaces agent_id with
  | none => none
  | some ai =>
    let rows := sim.vehicle_indices_by_actor_id agent_id
    match ai.action_space with
    | ActionSpaceType.MultiTargetPose =>
      let vids := rows.map (fun r => r.1)
      let per := vids.map (fun v => (v, sim.sensors_observe agent_id v))
      some {
        obs := ObsVal.batch (per.map (fun p => (p.1, p.2.1))),
        done := per.any (fun p => p.2.2),
        rew := RewVal.perVehicle (vids.map (fun v => (v, sim.trip_increment v))),
        score := RewVal.perVehicle
          (vids.map (fun v => (format_actor_id agent_id v, sim.trip_total v))) }
    | ActionSpaceType.Other =>
      match rows with
      | [(vid, shadow)] =>
        let od := sim.sensors_observe agent_id vid
        some {
          obs := ObsVal.single od.1,
          done := if shadow = agent_id then false else od.2,
          rew := RewVal.single (sim.trip_increment vid),
          score := RewVal.single (sim.trip_total vid) }
      | _ => none

/-- Writes one agent's update into the four result dicts. -/
def applyUpdate (acc : ObserveResult) (agent_id : String) (u : AgentUpdate) :
    ObserveResult :=
  { observations := dictUpdate acc.observations agent_id u.obs,
    rewards := dictUpdate acc.rewards agent_id u.rew,
    scores := dictUpdate acc.scores agent_id u.score,
    dones := dictUpdate acc.dones agent_id u.done }

/-- The for-loop of observe over the active agents. -/
def observeLoop (m : AgentManager) (sim : SimEnv) :
    ObserveResult → List String → Option ObserveResult
  | acc, [] => some acc
  | acc, a :: rest =>
    match agentUpdate m sim a with
    | none => none
    | some u => observeLoop m sim (applyUpdate acc a u) rest

/-- observe: seed the dones dict with the agents absent from the vehicle
index, then process every active agent. -/
def observe (m : AgentManager) (sim : SimEnv) : Option ObserveResult :=
  observeLoop m sim
    { observations := [], rewards := [], scores := [], dones := initialDones m sim }
    m.active_agents

/-- The controlling agent id set of _filter_social_agent_actions_for_
controlled_vehicles: image of the agent-controlled vehicle ids under
actor_id_from_vehicle_id. -/
def controlling_agent_ids (sim : SimEnv) : List String :=
  sim.agent_vehicle_ids.map sim.actor_id_from_vehicle_id

/-- The body of the boid for-loop of _filter_social_agent_actions_for_
controlled_vehicles for one retained entry: look up the agent interface
(KeyError is none); for a MultiTargetPose agent the action must be a
per-vehicle map (calling .items() on None or on a single action raises,
modelled none) and its inner map is restricted to the vehicle ids the agent
currently controls (include_shadowers=False); any other agent's entry
passes through unchanged. -/
def filterValue (m : AgentManager) (sim : SimEnv) (aid : String)
    (act : Option AgentAction) : Option (Option AgentAction) :=
  match dictLookup m.agent_interfaces aid with
  | none => none
  | some ai =>
    match ai.action_space with
    | ActionSpaceType.MultiTargetPose =>
      match act with
      | some (AgentAction.multi inner) =>
        some (some (AgentAction.multi
          (inner.filter (fun q => decide (q.1 ∈ sim.vehicle_ids_by_actor_id aid false)))))
      | _ => none
    | ActionSpaceType.Other => some act

/-- filterValue applied to an entry, keeping its key. -/
def filterEntry (m : AgentManager) (sim : SimEnv) (p : String × Option AgentAction) :
    Option (String × Option AgentAction) :=
  (filterValue m sim p.1 p.2).map (fun v => (p.1, v))

/-- Applies filterEntry to every entry, failing if any entry fails. -/
def filterEntries (m : AgentManager) (sim : SimEnv) :
    List (String × Option AgentAction) → Option (List (String × Option AgentAction))
  | [] => some []
  | p :: rest =>
    match filterEntry m sim p, filterEntries m sim rest with
    | some q, some qs => some (q :: qs)
    | _, _ => none

/-- _filter_social_agent_actions_for_controlled_vehicles: keep only entries
of agents that currently control some vehicle, then apply the boid
per-vehicle restriction. -/
def filter_social_agent_actions (m : AgentManager) (sim : SimEnv)
    (social : List (String × Option AgentAction)) :
    Option (List (String × Option AgentAction)) :=
  filterEntries m sim
    (social.filter (fun p => decide (p.1 ∈ controlling_agent_ids sim)))

/-- The social-agent action dict collected at the top of
fetch_agent_actions: recv_action of every remote social agent (none models
a timeout). -/
def socialActions (m : AgentManager) : List (String × Option AgentAction) :=
  m.remote_social_agents.map (fun p => (p.1, p.2.recv_action))

/-- fetch_agent_actions: collect the social actions (the ids that returned
none are logged, which has no state effect), filter them to controlled
vehicles, and return the Python dict union of the ego actions with the
filtered social actions. -/
def fetch_agent_actions (m : AgentManager) (sim : SimEnv)
    (ego_agent_actions : List (String × Option AgentAction)) :
    Option (List (String × Option AgentAction)) :=
  match filter_social_agent_actions m sim (socialActions m) with
  | none => none
  | some filtered => some (pyMerge ego_agent_actions filtered)

/-- _teardown_agents_by_ids: intersect the id set with the optional filter,
pop the agent_interfaces entry of every match (pop with a default never
raises), and return the matched ids. -/
def teardown_agents_by_ids (m : AgentManager) (agent_ids : List String)
    (filter_ids : Option (List String)) : AgentManager × List String :=
  let ids2 := match filter_ids with
    | none => agent_ids
    | some f => agent_ids.filter (fun a => decide (a ∈ f))
  ({ m with agent_interfaces :=
      m.agent_interfaces.filter (fun p => decide (p.1 ∉ ids2)) }, ids2)

/-- The for-loop of teardown_social_agents.  For each id in order: look up
the remote handle (KeyError is a false flag), call terminate (a raising
terminate stops the loop with the state as it stands), then delete the
handle entry and the data model entry (a missing data model raises after
the handle entry was already deleted).  Returns the final state, the list
of terminate calls made in order, and whether the loop finished normally. -/
def teardownLoop : AgentManager → List String → AgentManager × List String × Bool
  | m, [] => (m, [], true)
  | m, id2 :: rest =>
    match dictLookup m.remote_social_agents id2 with
    | none => (m, [], false)
    | some handle =>
      if handle.terminate_fails then (m, [id2], false)
      else
        match dictLookup m.agent_data_models id2 with
        | none =>
          let mh := { m with remote_social_agents := dictDelete m.remote_social_agents id2 }
          (mh, [id2], false)
        | some _ =>
          let m1 := { m with
            remote_social_agents := dictDelete m.remote_social_agents id2,
            agent_data_models := dictDelete m.agent_data_models id2 }
          let r := teardownLoop m1 rest
          (r.1, id2 :: r.2.1, r.2.2)

/-- The outcome of teardown_social_agents: the state left behind, the
terminate calls made, and the returned id set (none when an exception
escaped the loop). -/
structure TeardownOutcome where
  state : AgentManager
  terminate_calls : List String
  result : Option (List String)
deriving DecidableEq

/-- teardown_social_agents: compute the removed id set and pop the
interfaces via _teardown_agents_by_ids, run the terminate/delete loop, and
on normal completion subtract the removed ids from social_agent_ids and
return them; an escaping exception leaves the state as the loop left it. -/
def teardown_social_agents (m : AgentManager) (filter_ids : Option (List String)) :
    TeardownOutcome :=
  let t := teardown_agents_by_ids m m.social_agent_ids filter_ids
  let l := teardownLoop t.1 t.2
  if l.2.2 then
    { state := { l.1 with social_agent_ids :=
        l.1.social_agent_ids.filter (fun a => decide (a ∉ t.2)) },
      terminate_calls := l.2.1, result := some t.2 }
  else
    { state := l.1, terminate_calls := l.2.1, result := none }

/-- One step of attach_sensors_to_vehicles: a vehicle id that already has a
sensors binding is skipped; otherwise the observer agent id Agent-(sv_id)
is synthesized, the binding and interface are recorded, and sensors are
attached (recorded in the attach log). -/
def attachStep (agent_interface : AgentInterface)
    (acc : AgentManager × List String) (sv_id : String) : AgentManager × List String :=
  match dictLookup acc.1.vehicle_with_sensors sv_id with
  | some _ => acc
  | none =>
    let agent_id := "Agent-" ++ sv_id
    ({ acc.1 with
        vehicle_with_sensors := dictUpdate acc.1.vehicle_with_sensors sv_id agent_id,
        agent_interfaces := dictUpdate acc.1.agent_interfaces agent_id agent_interface },
     acc.2 ++ [sv_id])

/-- attach_sensors_to_vehicles: fold attachStep over the given vehicle ids.
The returned list logs the vehicles for which sensors were attached by this
invocation. -/
def attach_sensors_to_vehicles (m : AgentManager) (agent_interface : AgentInterface)
    (vehicle_ids : List String) : AgentManager × List String :=
  vehicle_ids.foldl (attachStep agent_interface) (m, [])

/-- The (observations, rewards, scores, dones) tuple returned by
observe_from, keyed by the synthesized observer agent ids. -/
structure ObserveFromResult where
  observations : List (String × Nat)
  rewards : List (String × Nat)
  scores : List (String × Nat)
  dones : List (String × Bool)
deriving DecidableEq

/-- The for-loop of observe_from: each vehicle id is resolved to its
synthesized observer agent id through _vehicle_with_sensors (KeyError is
none) and the four dicts are written under that agent id. -/
def observe_from_loop (m : AgentManager) (sim : SimEnv) :
    ObserveFromResult → List String → Option ObserveFromResult
  | acc, [] => some acc
  | acc, v_id :: rest =>
    match dictLookup m.vehicle_with_sensors v_id with
    | none => none
    | some agent_id =>
      let od := sim.sensors_observe agent_id v_id
      observe_from_loop m sim
        { observations := dictUpdate acc.observations agent_id od.1,
          rewards := dictUpdate acc.rewards agent_id (sim.trip_increment v_id),
          scores := dictUpdate acc.scores agent_id (sim.trip_total v_id),
          dones := dictUpdate acc.dones agent_id od.2 } rest

/-- observe_from: run the loop starting from empty dicts. -/
def observe_from (m : AgentManager) (sim : SimEnv) (vehicle_ids : List String) :
    Option ObserveFromResult :=
  observe_from_loop m sim
    { observations := [], rewards := [], scores := [], dones := [] } vehicle_ids

/-- A manager with every field empty, the base for the concrete scenarios
below. -/
def emptyManager : AgentManager :=
  { ego_agent_ids := [], social_agent_ids := [], vehicle_with_sensors := [],
    pending_agent_ids := [], agent_interfaces := [], agent_data_models := [],
    remote_social_agents := [] }

/-- A simulation in which every query returns the empty or zero answer, the
base for the concrete scenarios below. -/
def emptySim : SimEnv :=
  { agent_vehicle_ids := [], actor_id_from_vehicle_id := fun _ => "",
    vehicle_ids_by_actor_id := fun _ _ => [], vehicle_indices_by_actor_id := fun _ => [],
    sensors_observe := fun _ _ => (0, false), trip_increment := fun _ => 0,
    trip_total := fun _ => 0 }

/-- Scenario: one social agent s whose worker times out (recv_action none),
single-vehicle interface. -/
def scenTimeoutM : AgentManager :=
  { emptyManager with
    social_agent_ids := ["s"],
    agent_interfaces := [("s", { action_space := ActionSpaceType.Other })],
    remote_social_agents := [("s", { recv_action := none, terminate_fails := false })] }

/-- Scenario: the vehicle index reports vehicle v as agent-controlled, with
s as its controlling actor. -/
def scenControlSim : SimEnv :=
  { emptySim with
    agent_vehicle_ids := ["v"],
    actor_id_from_vehicle_id := fun _ => "s" }

/-- Scenario: like scenTimeoutM but the worker answers with action 2. -/
def scenCollideM : AgentManager :=
  { scenTimeoutM with
    remote_social_agents :=
      [("s", { recv_action := some (AgentAction.single 2), terminate_fails := false })] }

/-- Scenario: one active single-vehicle ego agent a. -/
def scenShadowM : AgentManager :=
  { emptyManager with
    ego_agent_ids := ["a"],
    agent_interfaces := [("a", { action_space := ActionSpaceType.Other })] }

/-- Scenario: agent a is bound to vehicle v whose recorded shadowing agent
is x (not a), and the sensor engine computes done = true. -/
def scenShadowSim : SimEnv :=
  { emptySim with
    agent_vehicle_ids := ["v"],
    vehicle_indices_by_actor_id := fun aid => if aid = "a" then [("v", "x")] else [],
    sensors_observe := fun _ _ => (0, true) }

/-- The result observe returns in the scenShadowM/scenShadowSim scenario. -/
def scenShadowRes : ObserveResult :=
  { observations := [("a", ObsVal.single 0)], rewards := [("a", RewVal.single 0)],
    scores := [("a", RewVal.single 0)], dones := [("a", true)] }

/-- Scenario: one registered ego agent a that is still pending and has no
vehicle in the vehicle index. -/
def scenPendingM : AgentManager :=
  { emptyManager with
    ego_agent_ids := ["a"],
    pending_agent_ids := ["a"] }

/-- The result observe returns in the scenPendingM/emptySim scenario. -/
def scenPendingRes : ObserveResult :=
  { observations := [], rewards := [], scores := [], dones := [("a", false)] }

/-- Scenario: boid agent A answering with a per-vehicle bundle for X and Y. -/
def scenBoidM : AgentManager :=
  { emptyManager with
    social_agent_ids := ["A"],
    agent_interfaces := [("A", { action_space := ActionSpaceType.MultiTargetPose })],
    remote_social_agents := [("A",
      { recv_action := some (AgentAction.multi [("X", 1), ("Y", 2)]),
        terminate_fails := false })] }

/-- Scenario: agent A controls vehicle X (and only X: Y is merely
shadowed, so it is absent from the include_shadowers=False answer). -/
def scenBoidSim : SimEnv :=
  { emptySim with
    agent_vehicle_ids := ["X"],
    actor_id_from_vehicle_id := fun _ => "A",
    vehicle_ids_by_actor_id := fun _ _ => ["X"] }

/-- Scenario: one social agent s whose worker handle raises on terminate. -/
def scenFailM : AgentManager :=
  { emptyManager with
    social_agent_ids := ["s"],
    agent_interfaces := [("s", { action_space := ActionSpaceType.Other })],
    agent_data_models := [("s", { name := "n" })],
    remote_social_agents := [("s", { recv_action := none, terminate_fails := true })] }

/-- Scenario: one social agent s whose worker handle terminates cleanly. -/
def scenTearM : AgentManager :=
  { scenFailM with
    remote_social_agents :=
      [("s", { recv_action := none, terminate_fails := false })] }

/-- Scenario: vehicle v already carries the bystander binding Agent-v. -/
def scenBindM : AgentManager :=
  { emptyManager with
    vehicle_with_sensors := [("v", "Agent-v")] }

/-- Scenario: registered agents a and p, of which only p is pending. -/
def scenPromoteM : AgentManager :=
  { emptyManager with
    ego_agent_ids := ["a", "p"],
    pending_agent_ids := ["p"] }

/-- The Other-action-space interface used by concrete scenarios. -/
def ifaceOther : AgentInterface := { action_space := ActionSpaceType.Other }

/-- Looking up the key just written returns the written value. -/
theorem dictLookup_update_self {α : Type} (l : List (String × α)) (k : String) (v : α) :
    dictLookup (dictUpdate l k v) k = some v := by
  induction l with
  | nil => simp [dictUpdate, dictLookup]
  | cons p rest ih =>
    obtain ⟨a, b⟩ := p
    by_cases h : a = k
    · simp [dictUpdate, h, dictLookup]
    · simp [dictUpdate, h, dictLookup, ih]

/-- Writing one key leaves the lookup of every other key unchanged. -/
theorem dictLookup_update_ne {α : Type} (l : List (String × α)) (k key : String) (v : α)
    (h : k ≠ key) : dictLookup (dictUpdate l k v) key = dictLookup l key := by
  induction l with
  | nil => simp [dictUpdate, dictLookup, h]
  | cons p rest ih =>
    obtain ⟨a, b⟩ := p
    by_cases ha : a = k
    · subst ha
      simp [dictUpdate, dictLookup, h]
    · simp [dictUpdate, ha, dictLookup, ih]

/-- Deleting one key leaves the lookup of every other key unchanged. -/
theorem dictLookup_delete_ne {α : Type} (l : List (String × α)) (k key : String)
    (h : key ≠ k) : dictLookup (dictDelete l k) key = dictLookup l key := by
  induction l with
  | nil => rfl
  | cons p rest ih =>
    obtain ⟨a, b⟩ := p
    by_cases ha : a = k
    · subst ha
      have hane : a ≠ key := fun hc => h hc.symm
      have hdrop : dictDelete ((a, b) :: rest) a = dictDelete rest a := by
        simp [dictDelete, List.filter_cons]
      rw [hdrop, ih]
      simp [dictLookup, hane]
    · have hkeep : dictDelete ((a, b) :: rest) k = (a, b) :: dictDelete rest k := by
        simp [dictDelete, List.filter_cons, ha]
      rw [hkeep]
      simp [dictLookup, ih]

/-- Lookup in a key-predicate filter of a dict. -/
theorem dictLookup_filter_key {α : Type} (pred : String → Bool) (l : List (String × α))
    (key : String) :
    dictLookup (l.filter (fun p => pred p.1)) key =
      if pred key then dictLookup l key else none := by
  induction l with
  | nil => simp [dictLookup]
  | cons p rest ih =>
    obtain ⟨a, b⟩ := p
    by_cases ha : a = key
    · subst ha
      by_cases hp : pred a
      · simp [List.filter, hp, dictLookup, ih]
      · simp [List.filter, hp, dictLookup, ih]
    · by_cases hp : pred a
      · simp [List.filter, hp, dictLookup, ha, ih]
      · simp [List.filter, hp, dictLookup, ha, ih]

/-- A key that appears in a duplicate-free dict looks up to its value. -/
theorem dictLookup_eq_some_of_mem_nodup {α : Type} (l : List (String × α)) (k : String)
    (v : α) (hm : (k, v) ∈ l) (hn : (l.map Prod.fst).Nodup) : dictLookup l k = some v := by
  induction l with
  | nil => cases hm
  | cons p rest ih =>
    obtain ⟨a, b⟩ := p
    simp only [List.map, List.nodup_cons] at hn
    rcases List.mem_cons.mp hm with heq | hrest
    · obtain ⟨h1, h2⟩ := Prod.mk.injEq .. ▸ heq
      simp [dictLookup, h1.symm, h2]
    · have hk : a ≠ k := by
        intro hak
        exact hn.1 (hak ▸ List.mem_map.mpr ⟨(k, v), hrest, rfl⟩)
      simp [dictLookup, hk, ih hrest hn.2]

/-- A key absent from the key list looks up to none. -/
theorem dictLookup_eq_none_of_not_mem_keys {α : Type} (l : List (String × α)) (k : String)
    (h : k ∉ l.map Prod.fst) : dictLookup l k = none := by
  induction l with
  | nil => rfl
  | cons p rest ih =>
    obtain ⟨a, b⟩ := p
    simp only [List.map, List.mem_cons, not_or] at h
    have : a ≠ k := fun hc => h.1 hc.symm
    simp [dictLookup, this, ih h.2]

/-- A key absent from the key list has no last binding either. -/
theorem lookupLast_eq_none_of_not_mem_keys {α : Type} (l : List (String × α)) (k : String)
    (h : k ∉ l.map Prod.fst) : lookupLast l k = none := by
  induction l with
  | nil => rfl
  | cons p rest ih =>
    obtain ⟨a, b⟩ := p
    simp only [List.map, List.mem_cons, not_or] at h
    have hne : a ≠ k := fun hc => h.1 hc.symm
    simp [lookupLast, ih h.2, hne]

/-- On a duplicate-free dict the last binding is the first binding. -/
theorem lookupLast_eq_dictLookup_of_nodup {α : Type} (l : List (String × α))
    (hn : (l.map Prod.fst).Nodup) (k : String) : lookupLast l k = dictLookup l k := by
  induction l with
  | nil => rfl
  | cons p rest ih =>
    obtain ⟨a, b⟩ := p
    simp only [List.map, List.nodup_cons] at hn
    by_cases ha : a = k
    · subst ha
      have hnone : lookupLast rest a = none :=
        lookupLast_eq_none_of_not_mem_keys rest a hn.1
      simp [lookupLast, dictLookup, hnone]
    · simp only [lookupLast, dictLookup, ih hn.2, if_neg ha]
      cases hdl : dictLookup rest k with
      | none => rfl
      | some w => rfl

/-- Lookup through a Python dict union: the second dict wins, falling back
to the first. -/
theorem dictLookup_pyMerge {α : Type} (b : List (String × α)) : ∀ (a : List (String × α))
    (key : String), dictLookup (pyMerge a b) key =
      match lookupLast b key with
      | some w => some w
      | none => dictLookup a key := by
  induction b with
  | nil => intro a key; rfl
  | cons p rest ih =>
    intro a key
    obtain ⟨k, v⟩ := p
    have hstep : pyMerge a ((k, v) :: rest) = pyMerge (dictUpdate a k v) rest := rfl
    rw [hstep, ih]
    cases hll : lookupLast rest key with
    | some w => simp [lookupLast, hll]
    | none =>
      by_cases hk : k = key
      · subst hk
        simp [lookupLast, hll, dictLookup_update_self]
      · simp [lookupLast, hll, hk, dictLookup_update_ne _ _ _ _ hk]

/-- Lookup in a dict built by pairing each element of a list with a value
computed from it. -/
theorem dictLookup_map_self {α : Type} (l : List String) (f : String → α) (a : String)
    (h : a ∈ l) : dictLookup (l.map (fun x => (x, f x))) a = some (f a) := by
  induction l with
  | nil => cases h
  | cons x rest ih =>
    by_cases hx : x = a
    · subst hx
      simp [dictLookup]
    · rcases List.mem_cons.mp h with heq | hrest
      · exact absurd heq.symm hx
      · simp [dictLookup, hx, ih hrest]

/-- filterEntries keeps the key list unchanged. -/
theorem filterEntries_keys (m : AgentManager) (sim : SimEnv) :
    ∀ (l out : List (String × Option AgentAction)),
    filterEntries m sim l = some out → out.map Prod.fst = l.map Prod.fst := by
  intro l
  induction l with
  | nil =>
    intro out h
    simp only [filterEntries, Option.some.injEq] at h
    subst h
    rfl
  | cons p rest ih =>
    intro out h
    simp only [filterEntries] at h
    cases hfe : filterEntry m sim p with
    | none => rw [hfe] at h; cases h
    | some q =>
      cases hfr : filterEntries m sim rest with
      | none => rw [hfe, hfr] at h; cases h
      | some qs =>
        rw [hfe, hfr] at h
        obtain rfl : q :: qs = out := by injection h
        obtain ⟨w, hw, hq⟩ := Option.map_eq_some'.mp hfe
        simp [List.map, ← hq, ih qs hfr]

/-- Lookup through filterEntries: the looked-up value is the filterValue of
the original value under the same key. -/
theorem filterEntries_lookup (m : AgentManager) (sim : SimEnv) :
    ∀ (l out : List (String × Option AgentAction)),
    filterEntries m sim l = some out → ∀ key,
    dictLookup out key = (dictLookup l key).bind (fun v => filterValue m sim key v) := by
  intro l
  induction l with
  | nil =>
    intro out h key
    simp only [filterEntries, Option.some.injEq] at h
    subst h
    rfl
  | cons p rest ih =>
    intro out h key
    simp only [filterEntries] at h
    cases hfe : filterEntry m sim p with
    | none => rw [hfe] at h; cases h
    | some q =>
      cases hfr : filterEntries m sim rest with
      | none => rw [hfe, hfr] at h; cases h
      | some qs =>
        rw [hfe, hfr] at h
        obtain rfl : q :: qs = out := by injection h
        obtain ⟨w, hw, hq⟩ := Option.map_eq_some'.mp hfe
        obtain ⟨a, b⟩ := p
        by_cases hk : a = key
        · subst hk
          simp [dictLookup, ← hq, hw]
        · have hq1 : q.1 = a := by rw [← hq]
          simp [dictLookup, ← hq, hk, ih qs hfr key]

/-- The keys of the collected social action dict are the keys of the remote
social agent registry. -/
theorem socialActions_keys (m : AgentManager) :
    (socialActions m).map Prod.fst = m.remote_social_agents.map Prod.fst := by
  simp [socialActions, List.map_map]

/-- A social agent that controls no vehicle is dropped by the filter, so
its merged-map entry is whatever the ego dict had. -/
theorem fetch_lookup_not_controlling (m : AgentManager) (sim : SimEnv)
    (ego res : List (String × Option AgentAction)) (s : String)
    (hres : fetch_agent_actions m sim ego = some res)
    (hnc : s ∉ controlling_agent_ids sim) :
    dictLookup res s = dictLookup ego s := by
  simp only [fetch_agent_actions] at hres
  cases hfs : filter_social_agent_actions m sim (socialActions m) with
  | none => rw [hfs] at hres; cases hres
  | some filtered =>
    rw [hfs] at hres
    obtain rfl : pyMerge ego filtered = res := by injection hres
    have hkeys : filtered.map Prod.fst =
        ((socialActions m).filter
          (fun p => decide (p.1 ∈ controlling_agent_ids sim))).map Prod.fst :=
      filterEntries_keys m sim _ _ hfs
    have hnk : s ∉ filtered.map Prod.fst := by
      rw [hkeys]
      intro hmem
      obtain ⟨p, hp, hps⟩ := List.mem_map.mp hmem
      have := (List.mem_filter.mp hp).2
      rw [hps] at this
      exact hnc (of_decide_eq_true this)
    rw [dictLookup_pyMerge, lookupLast_eq_none_of_not_mem_keys _ _ hnk]

/-- A controlling single-vehicle social agent's collected action value
passes through the filter and wins the merge against the ego dict. -/
theorem fetch_lookup_controlling (m : AgentManager) (sim : SimEnv)
    (ego res : List (String × Option AgentAction)) (s : String)
    (act : Option AgentAction)
    (hres : fetch_agent_actions m sim ego = some res)
    (hnd : (m.remote_social_agents.map Prod.fst).Nodup)
    (hlk : dictLookup (socialActions m) s = some act)
    (hctl : s ∈ controlling_agent_ids sim)
    (hint : (dictLookup m.agent_interfaces s).map AgentInterface.action_space =
      some ActionSpaceType.Other) :
    dictLookup res s = some act := by
  simp only [fetch_agent_actions] at hres
  cases hfs : filter_social_agent_actions m sim (socialActions m) with
  | none => rw [hfs] at hres; cases hres
  | some filtered =>
    rw [hfs] at hres
    obtain rfl : pyMerge ego filtered = res := by injection hres
    have hnds : ((socialActions m).map Prod.fst).Nodup := by
      rw [socialActions_keys]; exact hnd
    have hnd1 : (((socialActions m).filter
        (fun p => decide (p.1 ∈ controlling_agent_ids sim))).map Prod.fst).Nodup :=
      ((List.filter_sublist _).map Prod.fst).nodup hnds
    have hndf : (filtered.map Prod.fst).Nodup := by
      rw [filterEntries_keys m sim _ _ hfs]; exact hnd1
    have hl1 : dictLookup ((socialActions m).filter
        (fun p => decide (p.1 ∈ controlling_agent_ids sim))) s = some act := by
      rw [dictLookup_filter_key (fun a => decide (a ∈ controlling_agent_ids sim))]
      simp [hctl, hlk]
    obtain ⟨ai, hai, hsp⟩ := Option.map_eq_some'.mp hint
    have hfv : filterValue m sim s act = some act := by
      simp [filterValue, hai, hsp]
    have hlf : dictLookup filtered s = some act := by
      rw [filterEntries_lookup m sim _ _ hfs s, hl1]
      simpa using hfv
    rw [dictLookup_pyMerge, lookupLast_eq_dictLookup_of_nodup filtered hndf, hlf]

/-- The observe loop never touches the dones entry of an agent outside the
processed list. -/
theorem observeLoop_dones_not_mem (m : AgentManager) (sim : SimEnv) :
    ∀ (l : List String) (acc r : ObserveResult),
    observeLoop m sim acc l = some r → ∀ a, a ∉ l →
    dictLookup r.dones a = dictLookup acc.dones a := by
  intro l
  induction l with
  | nil =>
    intro acc r h a _
    obtain rfl : acc = r := by injection h
    rfl
  | cons b rest ih =>
    intro acc r h a ha
    simp only [List.mem_cons, not_or] at ha
    simp only [observeLoop] at h
    cases hu : agentUpdate m sim b with
    | none => rw [hu] at h; cases h
    | some u =>
      rw [hu] at h
      rw [ih (applyUpdate acc b u) r h a ha.2]
      exact dictLookup_update_ne acc.dones b a u.done (fun hc => ha.1 hc.symm)

/-- The dones entry of a processed agent is the done its agentUpdate
computed (the update depends only on the agent, so later writes of the same
agent rewrite the same value). -/
theorem observeLoop_dones_mem (m : AgentManager) (sim : SimEnv) :
    ∀ (l : List String) (acc r : ObserveResult),
    observeLoop m sim acc l = some r → ∀ a u, a ∈ l →
    agentUpdate m sim a = some u → dictLookup r.dones a = some u.done := by
  intro l
  induction l with
  | nil =>
    intro acc r _ a u ha
    cases ha
  | cons b rest ih =>
    intro acc r h a u ha hu
    simp only [observeLoop] at h
    cases hub : agentUpdate m sim b with
    | none => rw [hub] at h; cases h
    | some ub =>
      rw [hub] at h
      by_cases hmem : a ∈ rest
      · exact ih (applyUpdate acc b ub) r h a u hmem hu
      · have hab : a = b := by
          rcases List.mem_cons.mp ha with hab | hmem2
          · exact hab
          · exact absurd hmem2 hmem
        subst hab
        have huu : u = ub := by rw [hu] at hub; injection hub
        subst huu
        rw [observeLoop_dones_not_mem m sim rest (applyUpdate acc a u) r h a hmem]
        exact dictLookup_update_self acc.dones a u.done

/-- observe_from fails as soon as some requested vehicle id has no
bystander binding. -/
theorem observe_from_loop_unbound (m : AgentManager) (sim : SimEnv) :
    ∀ (l : List String) (acc : ObserveFromResult) (v : String), v ∈ l →
    dictLookup m.vehicle_with_sensors v = none →
    observe_from_loop m sim acc l = none := by
  intro l
  induction l with
  | nil =>
    intro acc v hv
    cases hv
  | cons w rest ih =>
    intro acc v hv hnone
    cases hlw : dictLookup m.vehicle_with_sensors w with
    | none => simp [observe_from_loop, hlw]
    | some aw =>
      have hvr : v ∈ rest := by
        rcases List.mem_cons.mp hv with hvw | hvr
        · subst hvw; rw [hlw] at hnone; cases hnone
        · exact hvr
      simp only [observe_from_loop, hlw]
      exact ih _ v hvr hnone

/-- observe_from succeeds when every requested vehicle id is bound. -/
theorem observe_from_loop_bound (m : AgentManager) (sim : SimEnv) :
    ∀ (l : List String) (acc : ObserveFromResult),
    (∀ v ∈ l, (dictLookup m.vehicle_with_sensors v).isSome = true) →
    (observe_from_loop m sim acc l).isSome = true := by
  intro l
  induction l with
  | nil =>
    intro acc _
    rfl
  | cons w rest ih =>
    intro acc hall
    have hw := hall w (List.mem_cons_self w rest)
    cases hlw : dictLookup m.vehicle_with_sensors w with
    | none => rw [hlw] at hw; cases hw
    | some aw =>
      simp only [observe_from_loop, hlw]
      exact ih _ (fun v hv => hall v (List.mem_cons_of_mem w hv))

/-- Once every dict of the accumulator has an entry under a key, the
observe_from loop keeps entries under that key. -/
theorem observe_from_loop_isSome_mono (m : AgentManager) (sim : SimEnv) :
    ∀ (l : List String) (acc r : ObserveFromResult) (a : String),
    observe_from_loop m sim acc l = some r →
    (dictLookup acc.observations a).isSome = true →
    (dictLookup acc.rewards a).isSome = true →
    (dictLookup acc.scores a).isSome = true →
    (dictLookup acc.dones a).isSome = true →
    (dictLookup r.observations a).isSome = true ∧
    (dictLookup r.rewards a).isSome = true ∧
    (dictLookup r.scores a).isSome = true ∧
    (dictLookup r.dones a).isSome = true := by
  intro l
  induction l with
  | nil =>
    intro acc r a h h1 h2 h3 h4
    obtain rfl : acc = r := by injection h
    exact ⟨h1, h2, h3, h4⟩
  | cons w rest ih =>
    intro acc r a h h1 h2 h3 h4
    simp only [observe_from_loop] at h
    cases hlw : dictLookup m.vehicle_with_sensors w with
    | none => rw [hlw] at h; cases h
    | some aw =>
      rw [hlw] at h
      refine ih _ r a h ?_ ?_ ?_ ?_ <;> by_cases hak : aw = a
      · subst hak; simp [dictLookup_update_self]
      · simp [dictLookup_update_ne _ _ _ _ hak, h1]
      · subst hak; simp [dictLookup_update_self]
      · simp [dictLookup_update_ne _ _ _ _ hak, h2]
      · subst hak; simp [dictLookup_update_self]
      · simp [dictLookup_update_ne _ _ _ _ hak, h3]
      · subst hak; simp [dictLookup_update_self]
      · simp [dictLookup_update_ne _ _ _ _ hak, h4]

/-- Every vehicle processed by observe_from leaves entries under its
synthesized observer agent id in all four dicts. -/
theorem observe_from_loop_sets (m : AgentManager) (sim : SimEnv) :
    ∀ (l : List String) (acc r : ObserveFromResult) (v a : String),
    observe_from_loop m sim acc l = some r → v ∈ l →
    dictLookup m.vehicle_with_sensors v = some a →
    (dictLookup r.observations a).isSome = true ∧
    (dictLookup r.rewards a).isSome = true ∧
    (dictLookup r.scores a).isSome = true ∧
    (dictLookup r.dones a).isSome = true := by
  intro l
  induction l with
  | nil =>
    intro acc r v a _ hv
    cases hv
  | cons w rest ih =>
    intro acc r v a h hv hb
    simp only [observe_from_loop] at h
    cases hlw : dictLookup m.vehicle_with_sensors w with
    | none => rw [hlw] at h; cases h
    | some aw =>
      rw [hlw] at h
      by_cases hvw : v = w
      · subst hvw
        have haw : a = aw := by rw [hb] at hlw; injection hlw
        subst haw
        exact observe_from_loop_isSome_mono m sim rest _ r a h
          (by simp [dictLookup_update_self]) (by simp [dictLookup_update_self])
          (by simp [dictLookup_update_self]) (by simp [dictLookup_update_self])
      · have hvr : v ∈ rest := by
          rcases List.mem_cons.mp hv with hc | hc
          · exact absurd hc hvw
          · exact hc
        exact ih _ r v a h hvr hb

/-- A key that is no vehicle's synthesized observer id is untouched by the
observe_from loop. -/
theorem observe_from_loop_absent (m : AgentManager) (sim : SimEnv) :
    ∀ (l : List String) (acc r : ObserveFromResult) (b : String),
    observe_from_loop m sim acc l = some r →
    (∀ v ∈ l, dictLookup m.vehicle_with_sensors v ≠ some b) →
    dictLookup r.dones b = dictLookup acc.dones b := by
  intro l
  induction l with
  | nil =>
    intro acc r b h _
    obtain rfl : acc = r := by injection h
    rfl
  | cons w rest ih =>
    intro acc r b h hno
    simp only [observe_from_loop] at h
    cases hlw : dictLookup m.vehicle_with_sensors w with
    | none => rw [hlw] at h; cases h
    | some aw =>
      rw [hlw] at h
      have hwb : aw ≠ b := by
        intro hc
        exact hno w (List.mem_cons_self w rest) (hc ▸ hlw)
      rw [ih _ r b h (fun v hv => hno v (List.mem_cons_of_mem w hv))]
      exact dictLookup_update_ne acc.dones aw b _ hwb

/-- The teardown loop only ever touches the remote handle and data model
registries. -/
theorem teardownLoop_fixed (l : List String) : ∀ m : AgentManager,
    (teardownLoop m l).1.ego_agent_ids = m.ego_agent_ids ∧
    (teardownLoop m l).1.social_agent_ids = m.social_agent_ids ∧
    (teardownLoop m l).1.pending_agent_ids = m.pending_agent_ids ∧
    (teardownLoop m l).1.agent_interfaces = m.agent_interfaces ∧
    (teardownLoop m l).1.vehicle_with_sensors = m.vehicle_with_sensors := by
  induction l with
  | nil => intro m; exact ⟨rfl, rfl, rfl, rfl, rfl⟩
  | cons b rest ih =>
    intro m
    cases hlk : dictLookup m.remote_social_agents b with
    | none => simp [teardownLoop, hlk]
    | some handle =>
      by_cases hf : handle.terminate_fails
      · simp [teardownLoop, hlk, hf]
      · cases hdm : dictLookup m.agent_data_models b with
        | none => simp [teardownLoop, hlk, hf, hdm]
        | some d =>
          have := ih { m with
            remote_social_agents := dictDelete m.remote_social_agents b,
            agent_data_models := dictDelete m.agent_data_models b }
          simpa [teardownLoop, hlk, hf, hdm] using this

/-- A handle whose terminate raises makes the loop end abnormally, with the
raising agent's handle and data model entries untouched. -/
theorem teardownLoop_fail (l : List String) : ∀ (m : AgentManager) (s : String)
    (h : RemoteAgent), s ∈ l → dictLookup m.remote_social_agents s = some h →
    h.terminate_fails = true →
    (teardownLoop m l).2.2 = false ∧
    dictLookup (teardownLoop m l).1.remote_social_agents s = some h ∧
    dictLookup (teardownLoop m l).1.agent_data_models s =
      dictLookup m.agent_data_models s := by
  induction l with
  | nil =>
    intro m s h hs
    cases hs
  | cons b rest ih =>
    intro m s h hs hlk hfail
    cases hlkb : dictLookup m.remote_social_agents b with
    | none => simp [teardownLoop, hlkb, hlk]
    | some hb =>
      by_cases hfb : hb.terminate_fails
      · simp [teardownLoop, hlkb, hfb, hlk]
      · have hbs : b ≠ s := by
          intro hc
          subst hc
          rw [hlkb] at hlk
          have : hb = h := by injection hlk
          exact hfb (this ▸ hfail)
        have hsr : s ∈ rest := by
          rcases List.mem_cons.mp hs with hc | hc
          · exact absurd hc.symm hbs
          · exact hc
        have hdel : dictLookup (dictDelete m.remote_social_agents b) s = some h := by
          rw [dictLookup_delete_ne m.remote_social_agents b s (fun hc => hbs hc.symm)]
          exact hlk
        cases hdm : dictLookup m.agent_data_models b with
        | none =>
          refine ⟨by simp [teardownLoop, hlkb, hfb, hdm], ?_, ?_⟩
          · simpa [teardownLoop, hlkb, hfb, hdm] using hdel
          · simp [teardownLoop, hlkb, hfb, hdm]
        | some d =>
          have hrec := ih { m with
              remote_social_agents := dictDelete m.remote_social_agents b,
              agent_data_models := dictDelete m.agent_data_models b }
            s h hsr hdel hfail
          have h4 : dictLookup (dictDelete m.agent_data_models b) s =
              dictLookup m.agent_data_models s :=
            dictLookup_delete_ne m.agent_data_models b s (fun hc => hbs hc.symm)
          refine ⟨?_, ?_, ?_⟩
          · simpa [teardownLoop, hlkb, hfb, hdm] using hrec.1
          · simpa [teardownLoop, hlkb, hfb, hdm] using hrec.2.1
          · have h3 := hrec.2.2
            simp only at h3
            rw [h4] at h3
            simpa [teardownLoop, hlkb, hfb, hdm] using h3

/-- When every listed agent has a non-raising handle and a data model and
the list is duplicate-free, the loop ends normally and calls terminate on
exactly the listed agents, in order. -/
theorem teardownLoop_clean (l : List String) : ∀ m : AgentManager, l.Nodup →
    (∀ i ∈ l, ∃ h, dictLookup m.remote_social_agents i = some h ∧
      h.terminate_fails = false) →
    (∀ i ∈ l, (dictLookup m.agent_data_models i).isSome = true) →
    (teardownLoop m l).2.2 = true ∧ (teardownLoop m l).2.1 = l := by
  induction l with
  | nil => intro m _ _ _; exact ⟨rfl, rfl⟩
  | cons b rest ih =>
    intro m hnd hrem hdm
    obtain ⟨hb, hlkb, hfb⟩ := hrem b (List.mem_cons_self b rest)
    have hdb := hdm b (List.mem_cons_self b rest)
    cases hdmb : dictLookup m.agent_data_models b with
    | none => rw [hdmb] at hdb; cases hdb
    | some d =>
      have hnd2 := List.nodup_cons.mp hnd
      have hrec := ih { m with
          remote_social_agents := dictDelete m.remote_social_agents b,
          agent_data_models := dictDelete m.agent_data_models b }
        hnd2.2
        (by
          intro i hi
          obtain ⟨hi2, hlki, hfi⟩ := hrem i (List.mem_cons_of_mem b hi)
          have hbi : i ≠ b := fun hc => hnd2.1 (hc ▸ hi)
          refine ⟨hi2, ?_, hfi⟩
          rw [dictLookup_delete_ne m.remote_social_agents b i hbi]
          exact hlki)
        (by
          intro i hi
          have hbi : i ≠ b := fun hc => hnd2.1 (hc ▸ hi)
          rw [dictLookup_delete_ne m.agent_data_models b i hbi]
          exact hdm i (List.mem_cons_of_mem b hi))
      constructor
      · simpa [teardownLoop, hlkb, hfb, hdmb] using hrec.1
      · simpa [teardownLoop, hlkb, hfb, hdmb] using hrec.2

/-- Filtering a string list by non-membership in the empty list keeps it. -/
theorem filter_not_mem_nil (l : List String) :
    l.filter (fun a => decide (a ∉ ([] : List String))) = l := by
  induction l with
  | nil => rfl
  | cons x rest ih => simp [List.filter_cons, ih]

/-- Filtering a dict by key non-membership in the empty list keeps it. -/
theorem filter_fst_not_mem_nil {α : Type} (l : List (String × α)) :
    l.filter (fun p => decide (p.1 ∉ ([] : List String))) = l := by
  induction l with
  | nil => rfl
  | cons x rest ih => simp [List.filter_cons, ih]

/-- Claim C1 counterexample: social agent s times out (recv_action none)
while controlling vehicle v; the merged action map returned by
fetch_agent_actions still contains an entry for s (bound to the explicit
no-action value), contradicting the claim that such an agent contributes no
entry even when it controls a vehicle. -/
theorem C1_counterexample :
    dictLookup (socialActions scenTimeoutM) "s" = some none ∧
    "s" ∈ controlling_agent_ids scenControlSim ∧
    (fetch_agent_actions scenTimeoutM scenControlSim []).map
      (fun d => dictLookup d "s") = some (some none) := by decide

/-- Claim C1 (amended): a social agent whose recv_action yields none is
logged, not fatal, and is excluded from the merged action map exactly when
it controls no vehicle; when it does control a vehicle (single-vehicle
interface) its id stays in the merged map, bound to the explicit no-action
value; the entries of every other agent are unaffected. -/
theorem C1_amended (m : AgentManager) (sim : SimEnv)
    (ego res : List (String × Option AgentAction)) (s : String) (ra : RemoteAgent)
    (hres : fetch_agent_actions m sim ego = some res)
    (hnd : (m.remote_social_agents.map Prod.fst).Nodup)
    (hmem : (s, ra) ∈ m.remote_social_agents)
    (hnone : ra.recv_action = none)
    (hint : (dictLookup m.agent_interfaces s).map AgentInterface.action_space =
      some ActionSpaceType.Other)
    (hego : dictLookup ego s = none) :
    dictLookup res s = if s ∈ controlling_agent_ids sim then some none else none := by
  by_cases hc : s ∈ controlling_agent_ids sim
  · rw [if_pos hc]
    have hmem2 : (s, ra.recv_action) ∈ socialActions m :=
      List.mem_map.mpr ⟨(s, ra), hmem, rfl⟩
    have hnds : ((socialActions m).map Prod.fst).Nodup := by
      rw [socialActions_keys]; exact hnd
    have hlk : dictLookup (socialActions m) s = some ra.recv_action :=
      dictLookup_eq_some_of_mem_nodup _ _ _ hmem2 hnds
    rw [hnone] at hlk
    exact fetch_lookup_controlling m sim ego res s none hres hnd hlk hc hint
  · rw [if_neg hc, fetch_lookup_not_controlling m sim ego res s hres hc, hego]

/-- Claim C1 witness: the amended statement evaluated on the concrete
timeout scenario. -/
theorem C1_amended_witness :
    dictLookup [("s", (none : Option AgentAction))] "s" =
      if "s" ∈ controlling_agent_ids scenControlSim then some none else none :=
  C1_amended scenTimeoutM scenControlSim [] [("s", none)] "s"
    { recv_action := none, terminate_fails := false }
    (by decide) (by decide) (by decide) rfl (by decide) rfl

/-- Claim C2 counterexample: when the same agent id carries an ego action
(single 1) and a filtered social action (single 2), the merged map returned
by fetch_agent_actions holds the social action, contradicting the claim
that ego entries take precedence on id collision. -/
theorem C2_counterexample :
    dictLookup [("s", some (AgentAction.single 1))] "s" =
      some (some (AgentAction.single 1)) ∧
    dictLookup (socialActions scenCollideM) "s" = some (some (AgentAction.single 2)) ∧
    (fetch_agent_actions scenCollideM scenControlSim
      [("s", some (AgentAction.single 1))]).map (fun d => dictLookup d "s") =
      some (some (some (AgentAction.single 2))) := by decide

/-- Claim C2 (amended): in the Python dict union of ego actions with
filtered social actions, the social entry takes precedence on id collision:
the merged map holds the social agent's collected action, whatever the ego
map bound to that id. -/
theorem C2_amended (m : AgentManager) (sim : SimEnv)
    (ego res : List (String × Option AgentAction)) (s : String) (ra : RemoteAgent)
    (e : Option AgentAction)
    (hres : fetch_agent_actions m sim ego = some res)
    (hnd : (m.remote_social_agents.map Prod.fst).Nodup)
    (hmem : (s, ra) ∈ m.remote_social_agents)
    (hctl : s ∈ controlling_agent_ids sim)
    (hint : (dictLookup m.agent_interfaces s).map AgentInterface.action_space =
      some ActionSpaceType.Other)
    (hego : dictLookup ego s = some e) :
    dictLookup res s = some ra.recv_action := by
  have hmem2 : (s, ra.recv_action) ∈ socialActions m :=
    List.mem_map.mpr ⟨(s, ra), hmem, rfl⟩
  have hnds : ((socialActions m).map Prod.fst).Nodup := by
    rw [socialActions_keys]; exact hnd
  have hlk : dictLookup (socialActions m) s = some ra.recv_action :=
    dictLookup_eq_some_of_mem_nodup _ _ _ hmem2 hnds
  exact fetch_lookup_controlling m sim ego res s ra.recv_action hres hnd hlk hctl hint

/-- Claim C2 witness: the amended statement evaluated on the concrete
collision scenario. -/
theorem C2_amended_witness :
    dictLookup [("s", some (AgentAction.single 2))] "s" =
      some (some (AgentAction.single 2)) :=
  C2_amended scenCollideM scenControlSim [("s", some (AgentAction.single 1))]
    [("s", some (AgentAction.single 2))] "s"
    { recv_action := some (AgentAction.single 2), terminate_fails := false }
    (some (AgentAction.single 1))
    (by decide) (by decide) (by decide) (by decide) (by decide) (by decide)

/-- Claim C5: filtering a controlling MultiTargetPose agent's per-vehicle
action bundle keeps exactly the actions for the vehicles the agent
currently controls (include_shadowers=False), dropping merely-shadowed
vehicles. -/
theorem C5_thm (m : AgentManager) (sim : SimEnv)
    (social out : List (String × Option AgentAction)) (aid : String)
    (inner : List (String × Nat))
    (hout : filter_social_agent_actions m sim social = some out)
    (hl : dictLookup social aid = some (some (AgentAction.multi inner)))
    (hctl : aid ∈ controlling_agent_ids sim)
    (hint : (dictLookup m.agent_interfaces aid).map AgentInterface.action_space =
      some ActionSpaceType.MultiTargetPose) :
    dictLookup out aid = some (some (AgentAction.multi
      (inner.filter (fun q => decide (q.1 ∈ sim.vehicle_ids_by_actor_id aid false))))) := by
  simp only [filter_social_agent_actions] at hout
  have hl1 : dictLookup (social.filter
      (fun p => decide (p.1 ∈ controlling_agent_ids sim))) aid =
      some (some (AgentAction.multi inner)) := by
    rw [dictLookup_filter_key (fun x => decide (x ∈ controlling_agent_ids sim))]
    simp [hctl, hl]
  obtain ⟨ai, hai, hsp⟩ := Option.map_eq_some'.mp hint
  rw [filterEntries_lookup m sim _ _ hout aid, hl1]
  simp [filterValue, hai, hsp]

/-- Claim C5 witness: agent A controls X and shadows Y; its bundle for X
and Y is filtered to the X action alone. -/
theorem C5_witness :
    filter_social_agent_actions scenBoidM scenBoidSim (socialActions scenBoidM) =
      some [("A", some (AgentAction.multi [("X", 1)]))] ∧
    dictLookup [("A", some (AgentAction.multi [("X", 1)]))] "A" =
      some (some (AgentAction.multi ([("X", 1), ("Y", 2)].filter
        (fun q => decide (q.1 ∈ scenBoidSim.vehicle_ids_by_actor_id "A" false))))) :=
  ⟨by decide,
   C5_thm scenBoidM scenBoidSim (socialActions scenBoidM)
     [("A", some (AgentAction.multi [("X", 1)]))] "A" [("X", 1), ("Y", 2)]
     (by decide) (by decide) (by decide) (by decide)⟩

/-- Claim C3 counterexample: agent a is bound to vehicle v whose recorded
shadowing agent is x, not a; the sensor engine computes done = true and
observe returns done = true for a, contradicting the claim that a
non-shadowing agent's done is forced to false. -/
theorem C3_counterexample :
    scenShadowSim.vehicle_indices_by_actor_id "a" = [("v", "x")] ∧
    ("x" : String) ≠ "a" ∧
    (scenShadowSim.sensors_observe "a" "v").2 = true ∧
    observe scenShadowM scenShadowSim = some scenShadowRes ∧
    dictLookup scenShadowRes.dones "a" = some true := by decide

/-- Claim C3 (amended): for an active single-vehicle agent, observe forces
done to false exactly when the agent IS the shadowing agent recorded for
its bound vehicle; when it is not the recorded shadowing agent, the done
computed by the sensor engine is returned unchanged (and the event is
logged). -/
theorem C3_amended (m : AgentManager) (sim : SimEnv) (r : ObserveResult)
    (a v s : String)
    (hobs : observe m sim = some r)
    (ha : a ∈ m.active_agents)
    (hint : (dictLookup m.agent_interfaces a).map AgentInterface.action_space =
      some ActionSpaceType.Other)
    (hrows : sim.vehicle_indices_by_actor_id a = [(v, s)]) :
    dictLookup r.dones a =
      some (if s = a then false else (sim.sensors_observe a v).2) := by
  obtain ⟨ai, hai, hsp⟩ := Option.map_eq_some'.mp hint
  have hu : agentUpdate m sim a = some
      { obs := ObsVal.single (sim.sensors_observe a v).1,
        rew := RewVal.single (sim.trip_increment v),
        score := RewVal.single (sim.trip_total v),
        done := if s = a then false else (sim.sensors_observe a v).2 } := by
    simp [agentUpdate, hai, hsp, hrows]
  have hobs2 : observeLoop m sim
      { observations := [], rewards := [], scores := [], dones := initialDones m sim }
      m.active_agents = some r := hobs
  exact observeLoop_dones_mem m sim m.active_agents _ r hobs2 a _ ha hu

/-- Claim C3 witness: the amended statement evaluated on the concrete
shadow scenario. -/
theorem C3_amended_witness :
    dictLookup scenShadowRes.dones "a" =
      some (if ("x" : String) = "a" then false
        else (scenShadowSim.sensors_observe "a" "v").2) :=
  C3_amended scenShadowM scenShadowSim scenShadowRes "a" "v" "x"
    (by decide) (by decide) (by decide) (by decide)

/-- Claim C4 counterexample: agent a is registered, pending, and absent
from the vehicle index agent-vehicle set; observe returns done = false for
it, contradicting the claim that it is marked done (true). -/
theorem C4_counterexample :
    "a" ∈ scenPendingM.pending_agent_ids ∧
    "a" ∉ emptySim.agent_vehicle_ids ∧
    observe scenPendingM emptySim = some scenPendingRes ∧
    dictLookup scenPendingRes.dones "a" = some false := by decide

/-- Claim C4 (amended): in observe, every registered agent in pending state
whose id never appeared in the vehicle index agent-vehicle set gets a dones
entry equal to false, not true (the comprehension maps each such agent to
the boolean "agent not pending", so only non-pending agents absent from the
index are marked done). -/
theorem C4_amended (m : AgentManager) (sim : SimEnv) (r : ObserveResult) (a : String)
    (hobs : observe m sim = some r)
    (hmem : a ∈ m.agent_ids)
    (hnv : a ∉ sim.agent_vehicle_ids)
    (hp : a ∈ m.pending_agent_ids) :
    dictLookup r.dones a = some false := by
  have hna : a ∉ m.active_agents := by
    simp [AgentManager.active_agents, List.mem_filter, hp]
  have hobs2 : observeLoop m sim
      { observations := [], rewards := [], scores := [], dones := initialDones m sim }
      m.active_agents = some r := hobs
  rw [observeLoop_dones_not_mem m sim m.active_agents _ r hobs2 a hna]
  have hin : a ∈ m.agent_ids.filter (fun x => decide (x ∉ sim.agent_vehicle_ids)) :=
    List.mem_filter.mpr ⟨hmem, decide_eq_true hnv⟩
  have hinit : dictLookup (initialDones m sim) a =
      some (decide (a ∉ m.pending_agent_ids)) :=
    dictLookup_map_self _ _ a hin
  have hdec : decide (a ∉ m.pending_agent_ids) = false :=
    decide_eq_false (not_not_intro hp)
  show dictLookup (initialDones m sim) a = some false
  rw [hinit, hdec]

/-- Claim C4 witness: the amended statement evaluated on the concrete
pending scenario. -/
theorem C4_amended_witness : dictLookup scenPendingRes.dones "a" = some false :=
  C4_amended scenPendingM emptySim scenPendingRes "a"
    (by decide) (by decide) (by decide) (by decide)

/-- Claim C7: attach_sensors_to_vehicles is idempotent per vehicle id: a
first invocation for an unbound vehicle id attaches sensors (log [v]),
records the binding under the synthesized deterministic observer id
Agent-(v), installs the capability descriptor under that id, and a second
invocation for the same vehicle id returns the state unchanged with nothing
attached. -/
theorem C7_thm (m : AgentManager) (i i2 : AgentInterface) (v : String)
    (h : dictLookup m.vehicle_with_sensors v = none) :
    (attach_sensors_to_vehicles m i [v]).2 = [v] ∧
    dictLookup (attach_sensors_to_vehicles m i [v]).1.vehicle_with_sensors v =
      some ("Agent-" ++ v) ∧
    dictLookup (attach_sensors_to_vehicles m i [v]).1.agent_interfaces
      ("Agent-" ++ v) = some i ∧
    attach_sensors_to_vehicles (attach_sensors_to_vehicles m i [v]).1 i2 [v] =
      ((attach_sensors_to_vehicles m i [v]).1, []) := by
  have hstep : attach_sensors_to_vehicles m i [v] =
      ({ m with
          vehicle_with_sensors := dictUpdate m.vehicle_with_sensors v ("Agent-" ++ v),
          agent_interfaces := dictUpdate m.agent_interfaces ("Agent-" ++ v) i },
       [v]) := by
    simp [attach_sensors_to_vehicles, List.foldl, attachStep, h]
  rw [hstep]
  refine ⟨rfl, dictLookup_update_self .., dictLookup_update_self .., ?_⟩
  simp [attach_sensors_to_vehicles, List.foldl, attachStep, dictLookup_update_self]

/-- Claim C7 witness: the idempotence statement evaluated on the empty
manager and vehicle v. -/
theorem C7_witness :
    (attach_sensors_to_vehicles emptyManager ifaceOther ["v"]).2 = ["v"] ∧
    dictLookup (attach_sensors_to_vehicles emptyManager ifaceOther
      ["v"]).1.vehicle_with_sensors "v" = some ("Agent-" ++ "v") ∧
    dictLookup (attach_sensors_to_vehicles emptyManager ifaceOther
      ["v"]).1.agent_interfaces ("Agent-" ++ "v") = some ifaceOther ∧
    attach_sensors_to_vehicles
      (attach_sensors_to_vehicles emptyManager ifaceOther ["v"]).1 ifaceOther ["v"] =
      ((attach_sensors_to_vehicles emptyManager ifaceOther ["v"]).1, []) :=
  C7_thm emptyManager ifaceOther ifaceOther "v" (by decide)

/-- Claim C9 counterexample: agent a is registered but not pending, and
remove_pending_agent_ids accepts the call (succeeds, a no-op on pending),
contradicting the claim that the call is rejected unless every id is
currently pending. -/
theorem C9_counterexample :
    ("a" : String) ∉ scenPromoteM.pending_agent_ids ∧
    ("a" : String) ∈ scenPromoteM.agent_ids ∧
    remove_pending_agent_ids scenPromoteM ["a"] = some scenPromoteM := by decide

/-- Claim C9 (amended): remove_pending_agent_ids is rejected only when some
id is not a registered agent id (pending membership is not required); on
success exactly the given ids are removed from pending_agent_ids, and
pending remains a subset of the registered agent ids. -/
theorem C9_amended (m : AgentManager) (ids ids3 : List String) (x : String)
    (hpend : m.pending_agent_ids ⊆ m.agent_ids)
    (hsub : ids ⊆ m.agent_ids)
    (hx : x ∈ ids3) (hxa : x ∉ m.agent_ids) :
    (remove_pending_agent_ids m ids).map (fun m2 => m2.pending_agent_ids) =
      some (m.pending_agent_ids.filter (fun a => decide (a ∉ ids))) ∧
    (remove_pending_agent_ids m ids).map
      (fun m2 => m2.pending_agent_ids.all (fun a => decide (a ∈ m.agent_ids))) =
      some true ∧
    remove_pending_agent_ids m ids3 = none := by
  have hall : ids.all (fun a => decide (a ∈ m.agent_ids)) = true := by
    rw [List.all_eq_true]
    intro a ha
    exact decide_eq_true (hsub ha)
  have hnall : ids3.all (fun a => decide (a ∈ m.agent_ids)) = false := by
    cases hcase : ids3.all (fun a => decide (a ∈ m.agent_ids)) with
    | false => rfl
    | true => exact absurd (of_decide_eq_true (List.all_eq_true.mp hcase x hx)) hxa
  refine ⟨?_, ?_, ?_⟩
  · simp [remove_pending_agent_ids, hall]
  · simp only [remove_pending_agent_ids, hall, if_true, Option.map_some',
      Option.some.injEq]
    rw [List.all_eq_true]
    intro a ha
    exact decide_eq_true (hpend (List.mem_filter.mp ha).1)
  · simp [remove_pending_agent_ids, hnall]

/-- Claim C9 witness: the amended statement evaluated on a manager with
registered agents a and p, pending p: promoting the non-pending a succeeds,
promoting the unregistered z is rejected. -/
theorem C9_amended_witness :
    (remove_pending_agent_ids scenPromoteM ["a"]).map
      (fun m2 => m2.pending_agent_ids) =
      some (scenPromoteM.pending_agent_ids.filter (fun a => decide (a ∉ ["a"]))) ∧
    (remove_pending_agent_ids scenPromoteM ["a"]).map
      (fun m2 => m2.pending_agent_ids.all
        (fun a => decide (a ∈ scenPromoteM.agent_ids))) = some true ∧
    remove_pending_agent_ids scenPromoteM ["z"] = none :=
  C9_amended scenPromoteM ["a"] ["z"] "z"
    (by simp [List.subset_def, scenPromoteM, emptyManager, AgentManager.agent_ids])
    (by simp [List.subset_def, scenPromoteM, emptyManager, AgentManager.agent_ids])
    (by decide) (by decide)

/-- A filter whose predicate is false on every element yields the empty
list. -/
theorem filter_eq_nil_of_forall {α : Type} (l : List α) (p : α → Bool)
    (h : ∀ a ∈ l, p a = false) : l.filter p = [] := by
  induction l with
  | nil => rfl
  | cons x rest ih =>
    simp [List.filter_cons, h x (List.mem_cons_self x rest),
      ih (fun a ha => h a (List.mem_cons_of_mem x ha))]

/-- teardown_social_agents with nothing to remove is a complete no-op that
returns the empty removed set. -/
theorem teardown_no_removed (S : AgentManager) (fi : Option (List String))
    (hb : (teardown_agents_by_ids S S.social_agent_ids fi).2 = []) :
    teardown_social_agents S fi =
      { state := S, terminate_calls := [], result := some [] } := by
  cases fi with
  | none =>
    have hb2 : S.social_agent_ids = [] := hb
    simp [teardown_social_agents, teardown_agents_by_ids, hb2, teardownLoop,
      filter_fst_not_mem_nil, filter_not_mem_nil]
    rw [← hb2]
  | some f =>
    have hb2 : S.social_agent_ids.filter (fun a => decide (a ∈ f)) = [] := hb
    simp [teardown_social_agents, teardown_agents_by_ids, hb2, teardownLoop,
      filter_fst_not_mem_nil, filter_not_mem_nil]

/-- Claim C6 counterexample: the only social agent's terminate raises; the
exception escapes teardown_social_agents and the agent's remote handle
entry, data model, and social id membership are all still present,
contradicting the claim that they are removed anyway. -/
theorem C6_counterexample :
    (teardown_social_agents scenFailM none).result = none ∧
    dictLookup (teardown_social_agents scenFailM none).state.remote_social_agents "s" =
      some { recv_action := none, terminate_fails := true } ∧
    dictLookup (teardown_social_agents scenFailM none).state.agent_data_models "s" =
      some { name := "n" } ∧
    "s" ∈ (teardown_social_agents scenFailM none).state.social_agent_ids := by decide

/-- Claim C6 (amended): when terminating a removed social agent's worker
handle raises, the failure is surfaced (the exception escapes, the call
returns no removed set), but that agent's remote handle entry, data model
and social id membership are NOT removed; only the agent_interfaces entries
were popped, before the terminate loop ran. -/
theorem C6_amended (m : AgentManager) (fi : Option (List String)) (s : String)
    (h : RemoteAgent)
    (hmem : s ∈ (teardown_agents_by_ids m m.social_agent_ids fi).2)
    (hlk : dictLookup m.remote_social_agents s = some h)
    (hfail : h.terminate_fails = true) :
    (teardown_social_agents m fi).result = none ∧
    dictLookup (teardown_social_agents m fi).state.remote_social_agents s = some h ∧
    dictLookup (teardown_social_agents m fi).state.agent_data_models s =
      dictLookup m.agent_data_models s ∧
    (teardown_social_agents m fi).state.social_agent_ids = m.social_agent_ids ∧
    (teardown_social_agents m fi).state.agent_interfaces =
      m.agent_interfaces.filter
        (fun p => decide (p.1 ∉ (teardown_agents_by_ids m m.social_agent_ids fi).2)) := by
  have hlk2 : dictLookup
      (teardown_agents_by_ids m m.social_agent_ids fi).1.remote_social_agents s =
      some h := hlk
  have hfl := teardownLoop_fail (teardown_agents_by_ids m m.social_agent_ids fi).2
    (teardown_agents_by_ids m m.social_agent_ids fi).1 s h hmem hlk2 hfail
  have hfix := teardownLoop_fixed (teardown_agents_by_ids m m.social_agent_ids fi).2
    (teardown_agents_by_ids m m.social_agent_ids fi).1
  have hred : teardown_social_agents m fi =
      { state := (teardownLoop (teardown_agents_by_ids m m.social_agent_ids fi).1
          (teardown_agents_by_ids m m.social_agent_ids fi).2).1,
        terminate_calls := (teardownLoop (teardown_agents_by_ids m m.social_agent_ids fi).1
          (teardown_agents_by_ids m m.social_agent_ids fi).2).2.1,
        result := none } := by
    simp [teardown_social_agents, hfl.1]
  rw [hred]
  exact ⟨rfl, hfl.2.1, hfl.2.2, hfix.2.1, hfix.2.2.2.1⟩

/-- Claim C6 witness: the amended statement evaluated on the concrete
raising-terminate scenario. -/
theorem C6_amended_witness :
    (teardown_social_agents scenFailM none).result = none ∧
    dictLookup (teardown_social_agents scenFailM none).state.remote_social_agents "s" =
      some { recv_action := none, terminate_fails := true } ∧
    dictLookup (teardown_social_agents scenFailM none).state.agent_data_models "s" =
      dictLookup scenFailM.agent_data_models "s" ∧
    (teardown_social_agents scenFailM none).state.social_agent_ids =
      scenFailM.social_agent_ids ∧
    (teardown_social_agents scenFailM none).state.agent_interfaces =
      scenFailM.agent_interfaces.filter (fun p => decide (p.1 ∉
        (teardown_agents_by_ids scenFailM scenFailM.social_agent_ids none).2)) :=
  C6_amended scenFailM none "s" { recv_action := none, terminate_fails := true }
    (by decide) (by decide) rfl

/-- Claim C8: teardown_social_agents returns exactly the ids matched by the
optional filter against the social id set, calls terminate once per removed
id (the call list equals the removed list and is duplicate-free), and a
second identical removal request is a no-op removing nothing and calling no
terminate. -/
theorem C8_thm (m : AgentManager) (fi : Option (List String))
    (hnd : m.social_agent_ids.Nodup)
    (hrem : ∀ i ∈ (teardown_agents_by_ids m m.social_agent_ids fi).2,
      ∃ h, dictLookup m.remote_social_agents i = some h ∧ h.terminate_fails = false)
    (hdm : ∀ i ∈ (teardown_agents_by_ids m m.social_agent_ids fi).2,
      (dictLookup m.agent_data_models i).isSome = true) :
    (teardown_social_agents m fi).result =
      some (teardown_agents_by_ids m m.social_agent_ids fi).2 ∧
    (teardown_social_agents m fi).terminate_calls =
      (teardown_agents_by_ids m m.social_agent_ids fi).2 ∧
    (teardown_social_agents m fi).terminate_calls.Nodup ∧
    teardown_social_agents (teardown_social_agents m fi).state fi =
      { state := (teardown_social_agents m fi).state,
        terminate_calls := [], result := some [] } := by
  have hnd2 : (teardown_agents_by_ids m m.social_agent_ids fi).2.Nodup := by
    cases fi with
    | none => exact hnd
    | some f => exact hnd.filter _
  have hclean := teardownLoop_clean (teardown_agents_by_ids m m.social_agent_ids fi).2
    (teardown_agents_by_ids m m.social_agent_ids fi).1 hnd2 hrem hdm
  have hfix := teardownLoop_fixed (teardown_agents_by_ids m m.social_agent_ids fi).2
    (teardown_agents_by_ids m m.social_agent_ids fi).1
  have hres1 : (teardown_social_agents m fi).result =
      some (teardown_agents_by_ids m m.social_agent_ids fi).2 := by
    simp [teardown_social_agents, hclean.1]
  have hcalls : (teardown_social_agents m fi).terminate_calls =
      (teardown_agents_by_ids m m.social_agent_ids fi).2 := by
    simp [teardown_social_agents, hclean.1, hclean.2]
  have hsoc1 : (teardownLoop (teardown_agents_by_ids m m.social_agent_ids fi).1
      (teardown_agents_by_ids m m.social_agent_ids fi).2).1.social_agent_ids =
      m.social_agent_ids := hfix.2.1
  have hS1 : (teardown_social_agents m fi).state.social_agent_ids =
      m.social_agent_ids.filter (fun a => decide
        (a ∉ (teardown_agents_by_ids m m.social_agent_ids fi).2)) := by
    simp [teardown_social_agents, hclean.1, hsoc1]
  have hnil : (teardown_agents_by_ids (teardown_social_agents m fi).state
      (teardown_social_agents m fi).state.social_agent_ids fi).2 = [] := by
    cases fi with
    | none =>
      show (teardown_social_agents m none).state.social_agent_ids = []
      rw [hS1]
      exact filter_eq_nil_of_forall _ _
        (fun a ha => decide_eq_false (not_not_intro ha))
    | some f =>
      show (teardown_social_agents m (some f)).state.social_agent_ids.filter
        (fun a => decide (a ∈ f)) = []
      rw [hS1]
      refine filter_eq_nil_of_forall _ _ ?_
      intro a ha
      have hmf := List.mem_filter.mp ha
      have hnotin : a ∉ m.social_agent_ids.filter (fun b => decide (b ∈ f)) :=
        of_decide_eq_true hmf.2
      refine decide_eq_false ?_
      intro haf
      exact hnotin (List.mem_filter.mpr ⟨hmf.1, decide_eq_true haf⟩)
  refine ⟨hres1, hcalls, ?_, ?_⟩
  · rw [hcalls]
    exact hnd2
  · exact teardown_no_removed (teardown_social_agents m fi).state fi hnil

/-- Claim C8 witness: the removal statement evaluated on the concrete
one-social-agent scenario with filter [s]. -/
theorem C8_witness :
    (teardown_social_agents scenTearM (some ["s"])).result =
      some (teardown_agents_by_ids scenTearM scenTearM.social_agent_ids
        (some ["s"])).2 ∧
    (teardown_social_agents scenTearM (some ["s"])).terminate_calls =
      (teardown_agents_by_ids scenTearM scenTearM.social_agent_ids (some ["s"])).2 ∧
    (teardown_social_agents scenTearM (some ["s"])).terminate_calls.Nodup ∧
    teardown_social_agents (teardown_social_agents scenTearM (some ["s"])).state
      (some ["s"]) =
      { state := (teardown_social_agents scenTearM (some ["s"])).state,
        terminate_calls := [], result := some [] } :=
  C8_thm scenTearM (some ["s"]) (by decide)
    (by
      intro i hi
      have his : i = "s" := by
        have := (List.mem_filter.mp hi).1
        simpa [scenTearM, scenFailM, emptyManager] using this
      subst his
      exact ⟨{ recv_action := none, terminate_fails := false }, by decide, rfl⟩)
    (by
      intro i hi
      have his : i = "s" := by
        have := (List.mem_filter.mp hi).1
        simpa [scenTearM, scenFailM, emptyManager] using this
      subst his
      decide)

/-- Claim C10: observe_from is only defined for vehicles previously bound
by attach_sensors_to_vehicles: a request containing an unbound vehicle id
fails (the agent-id lookup raises), while under the precondition that every
requested id is bound, it returns the tuple whose four dicts carry entries
under the synthesized observer agent ids and nothing under any other id. -/
theorem C10_thm (m : AgentManager) (sim : SimEnv) (ids ids2 : List String)
    (v a b v2 : String)
    (hall : ∀ w ∈ ids, (dictLookup m.vehicle_with_sensors w).isSome = true)
    (hv : v ∈ ids) (hb : dictLookup m.vehicle_with_sensors v = some a)
    (hnb : ∀ w ∈ ids, dictLookup m.vehicle_with_sensors w ≠ some b)
    (hv2 : v2 ∈ ids2) (hb2 : dictLookup m.vehicle_with_sensors v2 = none) :
    observe_from m sim ids2 = none ∧
    (observe_from m sim ids).map (fun r => (dictLookup r.observations a).isSome) =
      some true ∧
    (observe_from m sim ids).map (fun r => (dictLookup r.rewards a).isSome) =
      some true ∧
    (observe_from m sim ids).map (fun r => (dictLookup r.scores a).isSome) =
      some true ∧
    (observe_from m sim ids).map (fun r => (dictLookup r.dones a).isSome) =
      some true ∧
    (observe_from m sim ids).map (fun r => dictLookup r.dones b) = some none := by
  have h1 : observe_from m sim ids2 = none :=
    observe_from_loop_unbound m sim ids2 _ v2 hv2 hb2
  have h2 : (observe_from m sim ids).isSome = true :=
    observe_from_loop_bound m sim ids _ hall
  cases hr : observe_from m sim ids with
  | none => rw [hr] at h2; cases h2
  | some r =>
    have hr2 : observe_from_loop m sim
        { observations := [], rewards := [], scores := [], dones := [] } ids =
        some r := hr
    have hsets := observe_from_loop_sets m sim ids _ r v a hr2 hv hb
    have habs : dictLookup r.dones b = none :=
      observe_from_loop_absent m sim ids _ r b hr2 hnb
    refine ⟨h1, ?_, ?_, ?_, ?_, ?_⟩ <;>
      simp [hr, hsets.1, hsets.2.1, hsets.2.2.1, hsets.2.2.2, habs]

/-- Claim C10 witness: the statement evaluated on a manager binding vehicle
v to Agent-v: requesting [w] (unbound) fails, requesting [v] returns dicts
keyed by Agent-v and nothing under the unrelated id zz. -/
theorem C10_witness :
    observe_from scenBindM emptySim ["w"] = none ∧
    (observe_from scenBindM emptySim ["v"]).map
      (fun r => (dictLookup r.observations "Agent-v").isSome) = some true ∧
    (observe_from scenBindM emptySim ["v"]).map
      (fun r => (dictLookup r.rewards "Agent-v").isSome) = some true ∧
    (observe_from scenBindM emptySim ["v"]).map
      (fun r => (dictLookup r.scores "Agent-v").isSome) = some true ∧
    (observe_from scenBindM emptySim ["v"]).map
      (fun r => (dictLookup r.dones "Agent-v").isSome) = some true ∧
    (observe_from scenBindM emptySim ["v"]).map
      (fun r => dictLookup r.dones "zz") = some none :=
  C10_thm scenBindM emptySim ["v"] ["w"] "v" "Agent-v" "zz" "w"
    (by decide) (by decide) (by decide) (by decide) (by decide) (by decide)
